import Mathlib

/-!
Verification development for the museum-semantic-search repository's
Resilient Checkpointed Enrichment Pipeline.

The definitions below are shallow embeddings of:
* `scripts/met/fetch-met-image-urls.py` — `MetAPIFetcher.load_cache`,
  `MetAPIFetcher.save_entry`, `MetAPIFetcher.fetch_with_backoff`,
  `MetAPIFetcher.process_paintings`;
* `scripts/moma/generate_jina_v3_embeddings.py` — `load_progress`,
  `save_progress`, `create_text_for_embedding`, `process_artwork`, `main`;
* `scripts/moma/generate_siglip2_embeddings.py` — `process_artwork`, `main`.

Conventions: machine floats used only as sleep durations / delays are
modelled as `ℚ` (the code multiplies the base delay by powers of two, which
is exact); embedding vectors are opaque payloads (`List Int`) because no
claim inspects their values; wall-clock timestamps are supplied by explicit
clock parameters; the HTTP session is the response environment `env`
mapping each attempt number to the transport-layer outcome the code
distinguishes.  Every `print` call in the source is informational only and
is not modelled.
-/

/-- Python's `str.lower()` on the ASCII metadata this repository handles:
lower-case every character.  (Defined over the character list so that it is
kernel-computable; `Char.toLower` is the per-character lowering.) -/
def pyLower (s : String) : String :=
  String.mk (s.data.map Char.toLower)

/-- Python's `str.strip()`: drop whitespace from both ends (defined over
the character list so that it is kernel-computable). -/
def pyStrip (s : String) : String :=
  String.mk (((s.data.dropWhile Char.isWhitespace).reverse.dropWhile
    Char.isWhitespace).reverse)

namespace MetFetch

/-- The JSON body returned by the Met objects API for a 200 response,
restricted to the fields `save_entry` reads (each read with
`data.get(key, '')`, hence plain strings). -/
structure MetData where
  primaryImage : String
  primaryImageSmall : String
  title : String
  artistDisplayName : String
  objectDate : String
deriving DecidableEq, Repr

/-- The transport-layer outcomes `fetch_with_backoff` distinguishes, one
constructor per branch of the `if`/`elif`/`except` chain (lines 72-98 of
`fetch-met-image-urls.py`).  `rateLimited ra` carries the effective integer
value of the `Retry-After` header (the code defaults a missing header to
60); a header that fails `int(...)` raises inside the `try` and is caught
by the generic handler, i.e. it behaves as `otherError`. -/
inductive Resp where
  | ok (body : MetData)
  | okParseError
  | rateLimited (retryAfter : Nat)
  | forbidden
  | notFound
  | otherStatus (code : Nat)
  | timeout
  | connError
  | otherError
deriving DecidableEq, Repr

/-- The three distinct ways `fetch_with_backoff` returns: the `return
response.json()` at the 200 branch, the `return None` at the 404 branch,
and the `return None` after the retry loop. -/
inductive FetchResult where
  | success (body : MetData)
  | notFound
  | exhausted
deriving DecidableEq, Repr

/-- Observable trace of one `fetch_with_backoff` call: its result, the
number of HTTP attempts made, the sequence of `time.sleep` durations in
order, and the value of `self.consecutive_403s` when the call returns. -/
structure FetchTrace where
  result : FetchResult
  attempts : Nat
  sleeps : List ℚ
  c403 : Nat
deriving DecidableEq, Repr

/-- The trailing `# Exponential backoff` block of the loop body: it sleeps
`base_delay * 2 ** attempt` only when `attempt < max_retries - 1`, i.e.
when at least one more loop iteration (unit of fuel) remains. -/
def backoffSleeps (bd : ℚ) (fuel attempt : Nat) : List ℚ :=
  if 0 < fuel then [bd * 2 ^ attempt] else []

/-- The retry loop of `MetAPIFetcher.fetch_with_backoff`, lines 67-107.
`fuel` is the number of loop iterations left (`max_retries - attempt`),
`attempt` the current 0-based attempt index, `c403` the current value of
`self.consecutive_403s`.  Each branch records the sleeps it performs in
order: the rate-limit branches sleep first (`Retry-After`, resp.
`min(60 * consecutive_403s, 300)`) and then — since no branch ends in
`continue` — fall through to the exponential-backoff sleep. -/
def fetchGo (bd : ℚ) (env : Nat → Resp) : Nat → Nat → Nat → FetchTrace
  | 0, attempt, c403 => ⟨.exhausted, attempt, [], c403⟩
  | fuel + 1, attempt, c403 =>
    match env attempt with
    | .ok body => ⟨.success body, attempt + 1, [], 0⟩
    | .notFound => ⟨.notFound, attempt + 1, [], c403⟩
    | .rateLimited ra =>
      let rest := fetchGo bd env fuel (attempt + 1) c403
      ⟨rest.result, rest.attempts,
        (ra : ℚ) :: (backoffSleeps bd fuel attempt ++ rest.sleeps), rest.c403⟩
    | .forbidden =>
      let rest := fetchGo bd env fuel (attempt + 1) (c403 + 1)
      ⟨rest.result, rest.attempts,
        ((min (60 * (c403 + 1)) 300 : Nat) : ℚ) ::
          (backoffSleeps bd fuel attempt ++ rest.sleeps), rest.c403⟩
    | .okParseError =>
      let rest := fetchGo bd env fuel (attempt + 1) c403
      ⟨rest.result, rest.attempts, backoffSleeps bd fuel attempt ++ rest.sleeps, rest.c403⟩
    | .otherStatus _ =>
      let rest := fetchGo bd env fuel (attempt + 1) c403
      ⟨rest.result, rest.attempts, backoffSleeps bd fuel attempt ++ rest.sleeps, rest.c403⟩
    | .timeout =>
      let rest := fetchGo bd env fuel (attempt + 1) c403
      ⟨rest.result, rest.attempts, backoffSleeps bd fuel attempt ++ rest.sleeps, rest.c403⟩
    | .connError =>
      let rest := fetchGo bd env fuel (attempt + 1) c403
      ⟨rest.result, rest.attempts, backoffSleeps bd fuel attempt ++ rest.sleeps, rest.c403⟩
    | .otherError =>
      let rest := fetchGo bd env fuel (attempt + 1) c403
      ⟨rest.result, rest.attempts, backoffSleeps bd fuel attempt ++ rest.sleeps, rest.c403⟩

/-- `MetAPIFetcher.fetch_with_backoff(object_id, max_retries)`: run the
loop from attempt 0 with `maxR` iterations of fuel, starting from the
session's current `consecutive_403s` value.  The source default for
`max_retries` is 5. -/
def fetch_with_backoff (bd : ℚ) (env : Nat → Resp) (maxR : Nat) (c403 : Nat) : FetchTrace :=
  fetchGo bd env maxR 0 c403

/-- The transient outcome classes named by the spec: network timeout,
connection error, generic non-handled HTTP status (e.g. 5xx). -/
def isTransient : Resp → Bool
  | .timeout => true
  | .connError => true
  | .otherStatus _ => true
  | _ => false

/-- A cache-file entry as written by `MetAPIFetcher.save_entry`:
`hasImage` is `bool(data.get('primaryImage'))` and `fetched_at` the
write-time timestamp. -/
structure MetEntry where
  object_id : String
  primaryImage : String
  primaryImageSmall : String
  title : String
  artistDisplayName : String
  objectDate : String
  hasImage : Bool
  fetched_at : Nat
deriving DecidableEq, Repr

/-- `MetAPIFetcher.save_entry(object_id, data)` builds the entry appended
to the cache file (the file append itself is recorded by the driver state
below). -/
def save_entry (object_id : String) (data : MetData) (now : Nat) : MetEntry :=
  ⟨object_id, data.primaryImage, data.primaryImageSmall, data.title,
    data.artistDisplayName, data.objectDate, data.primaryImage != "", now⟩

/-- One persisted line of the cache file, classified by what
`json.loads(line)` followed by `entry['object_id']` does with it:
`goodJson e` parses to an object carrying an `object_id` key; `badJson`
makes `json.loads` raise `json.JSONDecodeError` (the only exception
`load_cache` catches); `jsonNoId` parses as JSON but has no `object_id`
key, so the subscript raises an uncaught `KeyError`. -/
inductive CacheLine where
  | goodJson (entry : MetEntry)
  | badJson
  | jsonNoId
deriving DecidableEq, Repr

/-- Python dict assignment `cache[k] = v` on an association list:
overwrite the existing binding for `k` in place, or append a new one. -/
def setKey : List (String × MetEntry) → String → MetEntry → List (String × MetEntry)
  | [], k, v => [(k, v)]
  | (k', v') :: rest, k, v =>
    if k' = k then (k, v) :: rest else (k', v') :: setKey rest k v

/-- The line-reading loop of `MetAPIFetcher.load_cache`, lines 35-40:
a decodable line is inserted into the dict, a `JSONDecodeError` line is
skipped with a warning, and a decodable line without the `object_id` key
raises (`Except.error`), aborting the whole load. -/
def loadCacheGo (cache : List (String × MetEntry)) :
    List CacheLine → Except String (List (String × MetEntry))
  | [] => .ok cache
  | .goodJson e :: rest => loadCacheGo (setKey cache e.object_id e) rest
  | .badJson :: rest => loadCacheGo cache rest
  | .jsonNoId :: _ => .error "KeyError: object_id"

/-- `MetAPIFetcher.load_cache()` over the persisted cache-file lines
(an absent file is the empty line list). -/
def load_cache (lines : List CacheLine) : Except String (List (String × MetEntry)) :=
  loadCacheGo [] lines

/-- One row of `MetObjects.csv` restricted to the columns
`process_paintings` reads (each via `row.get(col, '')`). -/
structure CsvRow where
  classification : String
  isPublicDomain : String
  linkResource : String
  objectId : String
deriving DecidableEq, Repr

/-- The CSV filter of `process_paintings`, lines 120-126: public-domain
paintings with a link resource whose non-empty object id is not already a
key of the loaded cache, kept in row order. -/
def paintingIdsOf (rows : List CsvRow) (cacheKeys : List String) : List String :=
  rows.filterMap (fun row =>
    if pyLower row.classification == "paintings"
        && pyLower row.isPublicDomain == "true"
        && pyStrip row.linkResource != ""
        && row.objectId != ""
        && !(cacheKeys.contains row.objectId)
    then some row.objectId else none)

/-- `if limit and limit < len(painting_ids): painting_ids = painting_ids[:limit]`
(Python truthiness: a 0 limit is falsy and means no limit). -/
def applyLimit (limit : Option Nat) (ids : List String) : List String :=
  match limit with
  | some l => if 0 < l ∧ l < ids.length then ids.take l else ids
  | none => ids

/-- Observable state of one `process_paintings` run: the object ids passed
to `fetch_with_backoff` in order, the per-call attempt counts and the
concatenated sleep log, the entries appended to the cache file, the
session's `consecutive_403s`, and the run's three cumulative counters
(`paintings_with_images`, `paintings_without_images`, `failed`).  The
fixed inter-item `time.sleep(self.base_delay)` (line 182) is not part of
any retry behaviour and is left out of the sleep log. -/
structure MetRunState where
  fetched : List String
  attemptsLog : List Nat
  sleeps : List ℚ
  appended : List MetEntry
  consecutive_403s : Nat
  withImages : Nat
  withoutImages : Nat
  failed : Nat
deriving DecidableEq, Repr

/-- The empty run state at loop entry (the fetcher is constructed with
`consecutive_403s = 0`). -/
def initMetRunState : MetRunState := ⟨[], [], [], [], 0, 0, 0, 0⟩

/-- The loop body of `process_paintings`, lines 150-182, for one object
id: call `fetch_with_backoff`; on `None` (not-found or exhausted retries
— the caller cannot tell them apart) increment `failed` and continue; on a
body, append the `save_entry` record and bump the with/without-image
counter. -/
def metStep (bd : ℚ) (maxR : Nat) (envOf : String → Nat → Resp) (now : String → Nat)
    (st : MetRunState) (object_id : String) : MetRunState :=
  let t := fetch_with_backoff bd (envOf object_id) maxR st.consecutive_403s
  let st' : MetRunState :=
    { st with fetched := st.fetched ++ [object_id],
              attemptsLog := st.attemptsLog ++ [t.attempts],
              sleeps := st.sleeps ++ t.sleeps,
              consecutive_403s := t.c403 }
  match t.result with
  | .success data =>
    let entry := save_entry object_id data (now object_id)
    { st' with appended := st'.appended ++ [entry],
               withImages := st'.withImages + (if entry.hasImage then 1 else 0),
               withoutImages := st'.withoutImages + (if entry.hasImage then 0 else 1) }
  | .notFound => { st' with failed := st'.failed + 1 }
  | .exhausted => { st' with failed := st'.failed + 1 }

/-- `MetAPIFetcher.process_paintings(csv_path, limit)`: load the cache
(whose failure propagates), filter the CSV, apply the limit, then fold the
loop body over the selected ids. -/
def process_paintings (bd : ℚ) (maxR : Nat) (envOf : String → Nat → Resp)
    (now : String → Nat) (rows : List CsvRow) (cacheLines : List CacheLine)
    (limit : Option Nat) : Except String MetRunState :=
  (load_cache cacheLines).map (fun cache =>
    let ids := applyLimit limit (paintingIdsOf rows (cache.map Prod.fst))
    ids.foldl (metStep bd maxR envOf now) initMetRunState)

end MetFetch

namespace Moma

/-- The checkpoint record of `progress.json`, fields exactly as written by
`save_progress` and read by `load_progress` in both embedding scripts. -/
structure Progress where
  lastProcessedIndex : Int
  totalProcessed : Nat
  totalSkipped : Nat
  totalFailed : Nat
  lastArtworkId : String
  timestamp : Nat
deriving DecidableEq, Repr

/-- `load_progress(progress_path)`: return the persisted record when the
file exists, else the zero-valued record with index -1. -/
def load_progress (file : Option Progress) (now : Nat) : Progress :=
  match file with
  | some p => p
  | none => ⟨-1, 0, 0, 0, "", now⟩

/-- One artwork as built by `load_moma_csv` in
`generate_jina_v3_embeddings.py` (each field via `row.get(col, '')`;
`hasImage` is `bool(row.get('ImageURL', '').strip())`). -/
structure Artwork where
  id : String
  title : String
  artist : String
  date : String
  medium : String
  classification : String
  department : String
  nationality : String
  artistBio : String
  creditLine : String
  dimensions : String
  hasImage : Bool
deriving DecidableEq, Repr

instance : Inhabited Artwork := ⟨⟨"", "", "", "", "", "", "", "", "", "", "", false⟩⟩

/-- An AI visual-description record from `descriptions.jsonl`, restricted
to the fields `create_text_for_embedding` reads. -/
structure Description where
  alt_text : String
  long_description : String
deriving DecidableEq, Repr

/-- `create_text_for_embedding(artwork, description)`: the conditional
parts list joined with `". "`, in source order (Python truthiness of a
string is non-emptiness). -/
def create_text_for_embedding (artwork : Artwork) (description : Option Description) : String :=
  let parts : List String :=
    (if artwork.title ≠ "" then ["Title: " ++ artwork.title] else [])
    ++ (if artwork.artist ≠ "" then ["Artist: " ++ artwork.artist] else [])
    ++ (if artwork.date ≠ "" then ["Date: " ++ artwork.date] else [])
    ++ (if artwork.medium ≠ "" then ["Medium: " ++ artwork.medium] else [])
    ++ (if artwork.classification ≠ "" then ["Type: " ++ artwork.classification] else [])
    ++ (if artwork.department ≠ "" then ["Department: " ++ artwork.department] else [])
    ++ (if artwork.nationality ≠ "" then ["Nationality: " ++ artwork.nationality] else [])
    ++ (if artwork.artistBio ≠ "" then ["Artist bio: " ++ artwork.artistBio] else [])
    ++ (if artwork.dimensions ≠ "" then ["Dimensions: " ++ artwork.dimensions] else [])
    ++ (if artwork.creditLine ≠ "" then ["Credit: " ++ artwork.creditLine] else [])
    ++ (match description with
        | some d =>
          (if d.alt_text ≠ "" then ["Visual description: " ++ d.alt_text] else [])
          ++ (if d.long_description ≠ "" then
                ["Detailed description: " ++ d.long_description] else [])
        | none => [])
  String.intercalate ". " parts

/-- The `{"processed": _, "skipped": _, "failed": _}` dict returned by
both scripts' `process_artwork`. -/
structure Counts3 where
  processed : Nat
  skipped : Nat
  failed : Nat
deriving DecidableEq, Repr

/-- Outcome of the `model.encode` call inside the jina `process_artwork`
try-block: a produced vector (values opaque) or a raised exception. -/
inductive EmbedOutcome where
  | ok (embedding : List Int)
  | exn
deriving DecidableEq, Repr

/-- One line of the jina `embeddings.jsonl` sink, fields as written by
`process_artwork` (metadata inlined). -/
structure JinaRecord where
  artwork_id : String
  embedding : List Int
  timestamp : Nat
  model : String
  dimension : Nat
  title : String
  artist : String
  collection : String
  has_image : Bool
  has_description : Bool
deriving DecidableEq, Repr

/-- `process_artwork` of `generate_jina_v3_embeddings.py`, lines 168-203:
empty combined text → skipped; encode exception → failed; otherwise write
one record to the sink and report processed. -/
def jina_process_artwork (embedRes : EmbedOutcome) (artwork : Artwork)
    (description : Option Description) (now : Nat) (sink : List JinaRecord) :
    Counts3 × List JinaRecord :=
  let text := create_text_for_embedding artwork description
  if pyStrip text = "" then (⟨0, 1, 0⟩, sink)
  else
    match embedRes with
    | .exn => (⟨0, 0, 1⟩, sink)
    | .ok emb =>
      (⟨1, 0, 0⟩, sink ++
        [⟨artwork.id, emb, now, "jina_v3", emb.length, artwork.title,
          (if artwork.artist = "" then "Unknown" else artwork.artist), "MoMA",
          artwork.hasImage, description.isSome⟩])

/-- One line of the siglip2 `embeddings.jsonl` sink. -/
structure Siglip2Record where
  artwork_id : String
  embedding : List Int
  timestamp : Nat
  model : String
  dimension : Nat
  title : String
  artist : String
  collection : String
deriving DecidableEq, Repr

/-- Outcome of the body of the siglip2 `process_artwork` try-block:
`download_image` returned `None` (it catches its own exceptions), some
later statement raised, or an embedding was produced. -/
inductive Siglip2Outcome where
  | downloadFail
  | exn
  | ok (embedding : List Int)
deriving DecidableEq, Repr

/-- `process_artwork` of `generate_siglip2_embeddings.py`, lines 122-158:
failed download → skipped; exception → failed; otherwise write one record
and report processed. -/
def siglip2_process_artwork (outcome : Siglip2Outcome) (artwork : Artwork) (now : Nat)
    (sink : List Siglip2Record) : Counts3 × List Siglip2Record :=
  match outcome with
  | .downloadFail => (⟨0, 1, 0⟩, sink)
  | .exn => (⟨0, 0, 1⟩, sink)
  | .ok emb =>
    (⟨1, 0, 0⟩, sink ++
      [⟨artwork.id, emb, now, "siglip2", emb.length, artwork.title,
        (if artwork.artist = "" then "Unknown" else artwork.artist), "MoMA"⟩])

/-- Result of the `for i in range(start_index, end_index)` loop shared by
both embedding scripts' `main`: the in-memory progress at loop exit (also
the final `save_progress` content), the checkpoints saved in order
(periodic saves plus the unconditional final save), and the sink. -/
structure LoopOut (α : Type) where
  final : Progress
  saves : List Progress
  sink : List α
deriving Repr

/-- The driver loop of `main` (jina lines 265-288, siglip2 lines 215-236),
abstracted over the per-item `process_artwork` call (`step i sink` returns
its counts dict and the sink after any write) and the artwork-id lookup.
After each item the progress record is updated unconditionally; every
`batchSize` visited items it is saved; on loop exit it is saved again. -/
def momaLoop {α : Type} (step : Nat → List α → Counts3 × List α) (idOf : Nat → String)
    (clock : Nat → Nat) (batchSize startIndex : Nat) :
    List Nat → Progress → List α → LoopOut α
  | [], p, sink => ⟨p, [p], sink⟩
  | i :: rest, p, sink =>
    let r := step i sink
    let p' : Progress :=
      ⟨(i : Int), p.totalProcessed + r.1.processed, p.totalSkipped + r.1.skipped,
        p.totalFailed + r.1.failed, idOf i, clock i⟩
    let out := momaLoop step idOf clock batchSize startIndex rest p' r.2
    if (i + 1 - startIndex) % batchSize = 0 then ⟨out.final, p' :: out.saves, out.sink⟩
    else out

/-- Observable result of one `main` run. -/
structure RunResult (α : Type) where
  final : Progress
  saves : List Progress
  sink : List α
  visited : List Nat
  start : Nat
deriving Repr

/-- The `main` driver shared by both embedding scripts (jina lines
205-296): load the checkpoint unconditionally, truncate the sink unless
`--resume`, start at `lastProcessedIndex + 1`, cap the range by `--limit`
and the dataset length `n`, then run the loop. -/
def momaMain {α : Type} (step : Nat → List α → Counts3 × List α) (idOf : Nat → String)
    (clock : Nat → Nat) (n : Nat) (limit : Option Nat) (resume : Bool) (batchSize : Nat)
    (checkpointFile : Option Progress) (sinkFile : List α) (now : Nat) : RunResult α :=
  let progress := load_progress checkpointFile now
  let sink0 := if resume then sinkFile else []
  let start : Nat := (progress.lastProcessedIndex + 1).toNat
  let endIndex : Nat :=
    match limit with
    | some l => min (start + l) n
    | none => n
  let idxs := List.range' start (endIndex - start)
  let out := momaLoop step idOf clock batchSize start idxs progress sink0
  ⟨out.final, out.saves, out.sink, idxs, start⟩

/-- `main` of `generate_jina_v3_embeddings.py`, instantiating the driver
with the jina `process_artwork` (the per-index `embeds` oracle is the
outcome of the encode call at that index). -/
def jinaMain (artworks : List Artwork) (descriptions : String → Option Description)
    (embeds : Nat → EmbedOutcome) (clock : Nat → Nat) (limit : Option Nat) (resume : Bool)
    (batchSize : Nat) (checkpointFile : Option Progress) (sinkFile : List JinaRecord)
    (now : Nat) : RunResult JinaRecord :=
  momaMain
    (fun i sink =>
      let artwork := artworks.getD i default
      jina_process_artwork (embeds i) artwork (descriptions artwork.id) (clock i) sink)
    (fun i => (artworks.getD i default).id)
    clock artworks.length limit resume batchSize checkpointFile sinkFile now

/-- `main` of `generate_siglip2_embeddings.py`, instantiating the driver
with the siglip2 `process_artwork`. -/
def siglip2Main (artworks : List Artwork) (outcomes : Nat → Siglip2Outcome)
    (clock : Nat → Nat) (limit : Option Nat) (resume : Bool) (batchSize : Nat)
    (checkpointFile : Option Progress) (sinkFile : List Siglip2Record)
    (now : Nat) : RunResult Siglip2Record :=
  momaMain
    (fun i sink =>
      siglip2_process_artwork (outcomes i) (artworks.getD i default) (clock i) sink)
    (fun i => (artworks.getD i default).id)
    clock artworks.length limit resume batchSize checkpointFile sinkFile now

end Moma

namespace MetFetch

theorem fetchGo_attempts_le (bd : ℚ) (env : Nat → Resp) :
    ∀ (fuel a c : Nat), (fetchGo bd env fuel a c).attempts ≤ a + fuel := by
  intro fuel
  induction fuel with
  | zero => intro a c; simp [fetchGo]
  | succ f ih =>
    intro a c
    cases h : env a
    case ok b => simp only [fetchGo, h]; omega
    case notFound => simp only [fetchGo, h]; omega
    case forbidden =>
      simp only [fetchGo, h]
      have := ih (a + 1) (c + 1)
      omega
    all_goals (
      simp only [fetchGo, h]
      have := ih (a + 1) c
      omega)

theorem fetchGo_transient (bd : ℚ) (env : Nat → Resp)
    (htr : ∀ i, isTransient (env i) = true) :
    ∀ (fuel a c : Nat), fetchGo bd env fuel a c =
      ⟨.exhausted, a + fuel, (List.range (fuel - 1)).map (fun k => bd * 2 ^ (a + k)), c⟩ := by
  intro fuel
  induction fuel with
  | zero => intro a c; simp [fetchGo]
  | succ f ih =>
    intro a c
    have ht := htr a
    cases h : env a <;> rw [h] at ht <;>
      simp only [isTransient, Bool.false_eq_true] at ht
    all_goals (
      simp only [fetchGo, h]
      rw [ih (a + 1) c]
      cases f with
      | zero => simp [backoffSleeps]
      | succ f' =>
        simp only [backoffSleeps, Nat.succ_sub_one, if_pos (Nat.succ_pos f'),
          List.singleton_append, List.range_succ_eq_map, List.map_cons, List.map_map]
        have e2 : ((fun k => bd * 2 ^ (a + k)) ∘ Nat.succ) = (fun k => bd * 2 ^ (a + 1 + k)) := by
          funext k
          simp only [Function.comp_apply, Nat.succ_eq_add_one]
          have e3 : a + (k + 1) = a + 1 + k := by omega
          rw [e3]
        have e4 : a + 1 + (f' + 1) = a + (f' + 1 + 1) := by omega
        rw [e2, e4]
        simp)

theorem fetchGo_exhausted_attempts (bd : ℚ) (env : Nat → Resp) :
    ∀ (fuel a c : Nat), (fetchGo bd env fuel a c).result = .exhausted →
      (fetchGo bd env fuel a c).attempts = a + fuel := by
  intro fuel
  induction fuel with
  | zero => intro a c _; simp [fetchGo]
  | succ f ih =>
    intro a c hres
    cases h : env a
    case ok b => simp only [fetchGo, h] at hres; simp at hres
    case notFound => simp only [fetchGo, h] at hres; simp at hres
    case forbidden =>
      simp only [fetchGo, h] at hres ⊢
      have := ih (a + 1) (c + 1) hres
      omega
    all_goals (
      simp only [fetchGo, h] at hres ⊢
      have := ih (a + 1) c hres
      omega)

theorem fetchGo_success_env (bd : ℚ) (env : Nat → Resp) :
    ∀ (fuel a c : Nat) (body : MetData),
      (fetchGo bd env fuel a c).result = .success body →
      ∃ i, a ≤ i ∧ i < a + fuel ∧ env i = .ok body := by
  intro fuel
  induction fuel with
  | zero => intro a c body h; simp [fetchGo] at h
  | succ f ih =>
    intro a c body hres
    cases h : env a
    case ok b =>
      simp only [fetchGo, h] at hres
      cases hres
      exact ⟨a, le_refl a, by omega, h⟩
    case notFound => simp only [fetchGo, h] at hres; simp at hres
    case forbidden =>
      simp only [fetchGo, h] at hres
      obtain ⟨i, h1, h2, h3⟩ := ih (a + 1) (c + 1) body hres
      exact ⟨i, by omega, by omega, h3⟩
    all_goals (
      simp only [fetchGo, h] at hres
      obtain ⟨i, h1, h2, h3⟩ := ih (a + 1) c body hres
      exact ⟨i, by omega, by omega, h3⟩)

theorem fetchGo_notFound_env (bd : ℚ) (env : Nat → Resp) :
    ∀ (fuel a c : Nat),
      (fetchGo bd env fuel a c).result = .notFound →
      ∃ i, a ≤ i ∧ i < a + fuel ∧ env i = .notFound := by
  intro fuel
  induction fuel with
  | zero => intro a c h; simp [fetchGo] at h
  | succ f ih =>
    intro a c hres
    cases h : env a
    case ok b => simp only [fetchGo, h] at hres; simp at hres
    case notFound =>
      simp only [fetchGo, h] at hres
      exact ⟨a, le_refl a, by omega, h⟩
    case forbidden =>
      simp only [fetchGo, h] at hres
      obtain ⟨i, h1, h2, h3⟩ := ih (a + 1) (c + 1) hres
      exact ⟨i, by omega, by omega, h3⟩
    all_goals (
      simp only [fetchGo, h] at hres
      obtain ⟨i, h1, h2, h3⟩ := ih (a + 1) c hres
      exact ⟨i, by omega, by omega, h3⟩)

/-- C5 helper: with every response 403 (soft block), the sleep performed by
the rate-limit branch on the (k+1)-th 403 of the call sits at position 2k
of the sleep log (each 403 sleep is followed by one backoff sleep), and its
duration is `min(60 * (c + k + 1), 300)` where `c` counts the consecutive
403s carried into the call by the session. -/
theorem fetchGo_forbidden_sleep_at (bd : ℚ) :
    ∀ (k f a c : Nat), k ≤ f →
      (fetchGo bd (fun _ => Resp.forbidden) (f + 1) a c).sleeps[2 * k]? =
        some ((min (60 * (c + k + 1)) 300 : Nat) : ℚ) := by
  intro k
  induction k with
  | zero =>
    intro f a c _
    simp [fetchGo, backoffSleeps]
  | succ k ih =>
    intro f a c hk
    cases f with
    | zero => omega
    | succ f' =>
      have h2 : 2 * (k + 1) = 2 * k + 1 + 1 := by ring
      simp only [fetchGo, backoffSleeps, if_pos (Nat.succ_pos f'), h2, List.singleton_append,
        List.getElem?_cons_succ]
      have e : c + (k + 1) + 1 = (c + 1) + k + 1 := by omega
      rw [e]
      exact ih f' (a + 1) (c + 1) (by omega)

/-- C4: for a single item whose every attempt fails transiently (timeout,
connection error, generic unhandled status), the call exhausts all
`max_retries` attempts and its sleep log is exactly
`[bd * 2^0, …, bd * 2^(maxR-2)]`: the delay before the k-th retry
(k = 1..maxR-1) is `base_delay * 2^(k-1)`, and no backoff sleep follows
the final attempt (the log has only `maxR - 1` entries); the 403 counter
is untouched. -/
theorem backoff_growth (bd : ℚ) (env : Nat → Resp) (maxR c : Nat)
    (htr : ∀ i, isTransient (env i) = true) :
    fetch_with_backoff bd env maxR c =
      ⟨.exhausted, maxR, (List.range (maxR - 1)).map (fun k => bd * 2 ^ k), c⟩ := by
  have h := fetchGo_transient bd env htr maxR 0 c
  simpa [fetch_with_backoff] using h

/-- Witness for C4 at `base_delay = 2`, all attempts timing out,
`max_retries = 5`: four backoff sleeps of 2, 4, 8, 16 seconds. -/
theorem backoff_growth_witness :
    (∀ i : Nat, isTransient ((fun _ => Resp.timeout) i) = true) ∧
    fetch_with_backoff 2 (fun _ => Resp.timeout) 5 0 =
      ⟨.exhausted, 5, [2, 4, 8, 16], 0⟩ := by
  constructor
  · intro i; rfl
  · rw [backoff_growth 2 (fun _ => Resp.timeout) 5 0 (fun i => rfl)]
    norm_num [List.range_succ]

/-- C3 counterexample: first attempt rate-limited with `Retry-After: 7`,
second attempt succeeds, `base_delay = 2`.  The claim says the client
sleeps exactly 7 seconds and no other delay is added for that attempt;
the code sleeps 7 seconds and then additionally the exponential backoff
delay `2 * 2^0 = 2` (the 429 branch does not `continue` past the backoff
block), so the sleep log is `[7, 2]`, not `[7]`. -/
theorem retry_after_extra_sleep_counterexample :
    (fetch_with_backoff 2
      (fun i => if i = 0 then Resp.rateLimited 7 else Resp.ok ⟨"", "", "", "", ""⟩)
      5 0).sleeps = [7, 2] ∧
    ¬ (fetch_with_backoff 2
      (fun i => if i = 0 then Resp.rateLimited 7 else Resp.ok ⟨"", "", "", "", ""⟩)
      5 0).sleeps = [7] := by
  constructor
  · norm_num [fetch_with_backoff, fetchGo, backoffSleeps]
  · norm_num [fetch_with_backoff, fetchGo, backoffSleeps]

/-- C3 (amended): on an attempt answered with HTTP 429, the client sleeps
exactly the header interval `ra` and then — whenever a further attempt
remains — additionally sleeps the generic exponential backoff delay
`base_delay * 2^attempt` before the next attempt; the rest of the call is
unchanged. -/
theorem retry_after_sleep_then_backoff (bd : ℚ) (env : Nat → Resp) (f a c ra : Nat)
    (h : env a = .rateLimited ra) :
    fetchGo bd env (f + 2) a c =
      ⟨(fetchGo bd env (f + 1) (a + 1) c).result,
       (fetchGo bd env (f + 1) (a + 1) c).attempts,
       (ra : ℚ) :: bd * 2 ^ a :: (fetchGo bd env (f + 1) (a + 1) c).sleeps,
       (fetchGo bd env (f + 1) (a + 1) c).c403⟩ := by
  show fetchGo bd env (f + 1 + 1) a c = _
  simp [fetchGo, h, backoffSleeps]

/-- Witness for the amended C3: concrete call with `Retry-After: 7` on
attempt 0 and 4 units of remaining fuel. -/
theorem retry_after_sleep_then_backoff_witness :
    fetchGo 2 (fun i => if i = 0 then Resp.rateLimited 7 else Resp.ok ⟨"", "", "", "", ""⟩)
      (3 + 2) 0 0 =
      ⟨(fetchGo 2 (fun i => if i = 0 then Resp.rateLimited 7 else Resp.ok ⟨"", "", "", "", ""⟩)
          (3 + 1) (0 + 1) 0).result,
       (fetchGo 2 (fun i => if i = 0 then Resp.rateLimited 7 else Resp.ok ⟨"", "", "", "", ""⟩)
          (3 + 1) (0 + 1) 0).attempts,
       ((7 : Nat) : ℚ) :: 2 * 2 ^ 0 ::
         (fetchGo 2 (fun i => if i = 0 then Resp.rateLimited 7 else Resp.ok ⟨"", "", "", "", ""⟩)
          (3 + 1) (0 + 1) 0).sleeps,
       (fetchGo 2 (fun i => if i = 0 then Resp.rateLimited 7 else Resp.ok ⟨"", "", "", "", ""⟩)
          (3 + 1) (0 + 1) 0).c403⟩ :=
  retry_after_sleep_then_backoff 2 _ 3 0 0 7 rfl

/-- C6: a single client call makes at most `max_retries` attempts and
returns exactly one of the three modelled outcomes — a usable body, the
terminal not-found marker, or exhaustion after all `max_retries` attempts;
a body or not-found result reflects an actual response within the attempt
bound.  (The model is a total function: every `except` arm of the source
folds a raised exception into a retry, so no exception escapes the call.) -/
theorem fetch_bounded_total (bd : ℚ) (env : Nat → Resp) (maxR c : Nat) :
    (fetch_with_backoff bd env maxR c).attempts ≤ maxR ∧
    ((fetch_with_backoff bd env maxR c).result = .exhausted →
      (fetch_with_backoff bd env maxR c).attempts = maxR) ∧
    (∀ body, (fetch_with_backoff bd env maxR c).result = .success body →
      ∃ i, i < maxR ∧ env i = .ok body) ∧
    ((fetch_with_backoff bd env maxR c).result = .notFound →
      ∃ i, i < maxR ∧ env i = .notFound) := by
  refine ⟨?_, ?_, ?_, ?_⟩
  · simpa using fetchGo_attempts_le bd env maxR 0 c
  · intro h
    simpa using fetchGo_exhausted_attempts bd env maxR 0 c h
  · intro body h
    obtain ⟨i, _, h2, h3⟩ := fetchGo_success_env bd env maxR 0 c body h
    exact ⟨i, by omega, h3⟩
  · intro h
    obtain ⟨i, _, h2, h3⟩ := fetchGo_notFound_env bd env maxR 0 c h
    exact ⟨i, by omega, h3⟩

/-- Witness for C6 at a concrete environment answering 404 on attempt 0. -/
theorem fetch_bounded_total_witness :
    (fetch_with_backoff 2 (fun _ => Resp.notFound) 5 0).attempts ≤ 5 ∧
    (∃ i, i < 5 ∧ (fun _ => Resp.notFound) i = Resp.notFound) := by
  refine ⟨(fetch_bounded_total 2 (fun _ => Resp.notFound) 5 0).1, ?_⟩
  exact (fetch_bounded_total 2 (fun _ => Resp.notFound) 5 0).2.2.2 rfl

/-- C5: the 403 soft-block branch of the client sleeps
`min(60 * N, 300)` on the N-th consecutive 403 signal of the session (the
incoming counter `c` counts the consecutive signals of previous calls, so
the (k+1)-th 403 of this call is the session's N = c + k + 1-th), and a
200 response resets `consecutive_403s` to 0. -/
theorem rate_limit_escalation :
    (∀ (bd : ℚ) (c k maxR : Nat), k < maxR →
      (fetch_with_backoff bd (fun _ => Resp.forbidden) maxR c).sleeps[2 * k]? =
        some ((min (60 * (c + k + 1)) 300 : Nat) : ℚ)) ∧
    (∀ (bd : ℚ) (env : Nat → Resp) (f a c : Nat) (body : MetData), env a = .ok body →
      fetchGo bd env (f + 1) a c = ⟨.success body, a + 1, [], 0⟩) := by
  constructor
  · intro bd c k maxR hk
    cases maxR with
    | zero => omega
    | succ f =>
      exact fetchGo_forbidden_sleep_at bd k f 0 c (by omega)
  · intro bd env f a c body h
    simp [fetchGo, h]

/-- Witness for C5: two prior consecutive 403s (`c = 2`), so the second
403 of the call is the session's 4th: its sleep is `min(240, 300) = 240`;
and a 200 on the current attempt resets the counter to 0. -/
theorem rate_limit_escalation_witness :
    (fetch_with_backoff 2 (fun _ => Resp.forbidden) 5 2).sleeps[2 * 1]? =
      some ((min (60 * (2 + 1 + 1)) 300 : Nat) : ℚ) ∧
    fetchGo 2 (fun _ => Resp.ok ⟨"", "", "", "", ""⟩) (0 + 1) 0 7 =
      ⟨.success ⟨"", "", "", "", ""⟩, 0 + 1, [], 0⟩ :=
  ⟨rate_limit_escalation.1 2 2 1 5 (by omega),
   rate_limit_escalation.2 2 _ 0 0 7 _ rfl⟩

/-- C1 (amended): an item answered 404 on its first attempt costs exactly
one call attempt and no sleep at all, and the driver loop then increments
the run's single cumulative `failed` counter — the script keeps no
"skipped" counter, and nothing is appended to the cache; the log line
"Skipping object … (not found in API)" notwithstanding, the item is
classified as failed in the cumulative counters. -/
theorem met_404_one_attempt_counted_failed (bd : ℚ) (maxR : Nat)
    (envOf : String → Nat → Resp) (now : String → Nat) (st : MetRunState)
    (object_id : String) (hmax : 1 ≤ maxR) (h404 : envOf object_id 0 = .notFound) :
    fetch_with_backoff bd (envOf object_id) maxR st.consecutive_403s =
      ⟨.notFound, 1, [], st.consecutive_403s⟩ ∧
    metStep bd maxR envOf now st object_id =
      ⟨st.fetched ++ [object_id], st.attemptsLog ++ [1], st.sleeps, st.appended,
       st.consecutive_403s, st.withImages, st.withoutImages, st.failed + 1⟩ := by
  have hf : fetch_with_backoff bd (envOf object_id) maxR st.consecutive_403s =
      ⟨.notFound, 1, [], st.consecutive_403s⟩ := by
    cases maxR with
    | zero => omega
    | succ f => simp [fetch_with_backoff, fetchGo, h404]
  refine ⟨hf, ?_⟩
  simp only [metStep, hf]
  simp

/-- Witness for the amended C1 at a concrete state and 404 environment. -/
theorem met_404_one_attempt_counted_failed_witness :
    fetch_with_backoff 2 ((fun _ _ => Resp.notFound) "42") 5
      (initMetRunState.consecutive_403s) = ⟨.notFound, 1, [], 0⟩ ∧
    metStep 2 5 (fun _ _ => Resp.notFound) (fun _ => 0) initMetRunState "42" =
      ⟨["42"], [1], [], [], 0, 0, 0, 1⟩ := by
  have h := met_404_one_attempt_counted_failed 2 5 (fun _ _ => Resp.notFound)
    (fun _ => 0) initMetRunState "42" (by omega) rfl
  simpa [initMetRunState] using h

/-- C1 counterexample (to the claim as stated): a one-item run whose only
object gets 404 on the first attempt makes one attempt and sleeps nothing,
but finishes with the cumulative counters `(withImages, withoutImages,
failed) = (0, 0, 1)` — the item is counted as failed, not skipped (no
skipped counter exists). -/
theorem met_404_counted_failed_counterexample :
    process_paintings 2 5 (fun _ _ => Resp.notFound) (fun _ => 0)
      [⟨"Paintings", "True", "http://x", "42"⟩] [] none =
      .ok ⟨["42"], [1], [], [], 0, 0, 0, 1⟩ ∧
    (⟨["42"], [1], [], [], 0, 0, 0, 1⟩ : MetRunState).failed ≠ 0 := by
  constructor
  · rfl
  · decide

theorem loadCacheGo_skip_badJson :
    ∀ (lines : List CacheLine) (cache : List (String × MetEntry)),
      loadCacheGo cache (lines.filter (fun l => l != CacheLine.badJson)) =
        loadCacheGo cache lines := by
  intro lines
  induction lines with
  | nil => intro cache; rfl
  | cons l rest ih =>
    intro cache
    cases l with
    | goodJson e => simp [List.filter_cons, loadCacheGo, ih]
    | badJson => simp [List.filter_cons, loadCacheGo, ih]
    | jsonNoId => simp [List.filter_cons, loadCacheGo]

theorem loadCacheGo_total_of_no_noId :
    ∀ (lines : List CacheLine) (cache : List (String × MetEntry)),
      (∀ l ∈ lines, l ≠ CacheLine.jsonNoId) →
      ∃ m, loadCacheGo cache lines = .ok m := by
  intro lines
  induction lines with
  | nil => intro cache _; exact ⟨cache, rfl⟩
  | cons l rest ih =>
    intro cache hno
    cases l with
    | goodJson e =>
      exact ih (setKey cache e.object_id e) (fun x hx => hno x (List.mem_cons_of_mem _ hx))
    | badJson => exact ih cache (fun x hx => hno x (List.mem_cons_of_mem _ hx))
    | jsonNoId => exact absurd rfl (hno CacheLine.jsonNoId (List.mem_cons_self _ _))

theorem setKey_keys_mem (a k : String) (v : MetEntry) :
    ∀ cache, a ∈ (setKey cache k v).map Prod.fst ↔ a = k ∨ a ∈ cache.map Prod.fst := by
  intro cache
  induction cache with
  | nil => simp [setKey]
  | cons p rest ih =>
    obtain ⟨k', v'⟩ := p
    by_cases h : k' = k
    · subst h
      simp [setKey]
    · simp only [setKey, if_neg h, List.map_cons, List.mem_cons, ih]
      tauto

theorem loadCacheGo_keys_mono :
    ∀ (lines : List CacheLine) (cache m : List (String × MetEntry)) (k : String),
      loadCacheGo cache lines = .ok m →
      k ∈ cache.map Prod.fst → k ∈ m.map Prod.fst := by
  intro lines
  induction lines with
  | nil =>
    intro cache m k h hk
    simp only [loadCacheGo, Except.ok.injEq] at h
    exact h ▸ hk
  | cons l rest ih =>
    intro cache m k h hk
    cases l with
    | goodJson e =>
      exact ih _ m k h ((setKey_keys_mem k e.object_id e cache).mpr (Or.inr hk))
    | badJson => exact ih cache m k h hk
    | jsonNoId => simp [loadCacheGo] at h

theorem loadCacheGo_goodJson_key :
    ∀ (lines : List CacheLine) (cache m : List (String × MetEntry)) (e : MetEntry),
      loadCacheGo cache lines = .ok m →
      CacheLine.goodJson e ∈ lines → e.object_id ∈ m.map Prod.fst := by
  intro lines
  induction lines with
  | nil => intro cache m e _ he; simp at he
  | cons l rest ih =>
    intro cache m e h he
    rcases List.mem_cons.mp he with heq | hrest
    · cases heq
      exact loadCacheGo_keys_mono rest _ m e.object_id h
        ((setKey_keys_mem e.object_id e.object_id e cache).mpr (Or.inl rfl))
    · cases l with
      | goodJson e' => exact ih _ m e h hrest
      | badJson => exact ih cache m e h hrest
      | jsonNoId => simp [loadCacheGo] at h

/-- C7 (amended): `load_cache` tolerates and skips exactly the lines that
fail JSON decoding: if no line is of the valid-JSON-but-no-`object_id`
kind, the load succeeds, returns the same mapping as if the undecodable
lines were absent, and every well-formed entry's identifier is a key of
the result.  (A line that decodes to JSON without an `object_id` key
raises an uncaught `KeyError` and fails the whole load — see the
counterexample.) -/
theorem load_cache_skips_undecodable_lines (lines : List CacheLine)
    (hno : ∀ l ∈ lines, l ≠ CacheLine.jsonNoId) :
    ∃ m, load_cache lines = .ok m ∧
      load_cache (lines.filter (fun l => l != CacheLine.badJson)) = .ok m ∧
      ∀ e, CacheLine.goodJson e ∈ lines → e.object_id ∈ m.map Prod.fst := by
  obtain ⟨m, hm⟩ := loadCacheGo_total_of_no_noId lines [] hno
  refine ⟨m, hm, ?_, fun e he => loadCacheGo_goodJson_key lines [] m e hm he⟩
  rw [load_cache, loadCacheGo_skip_badJson]
  exact hm

/-- Witness for the amended C7: a three-line file whose middle line is
undecodable loads successfully. -/
theorem load_cache_skips_undecodable_lines_witness :
    ∃ m, load_cache [CacheLine.goodJson ⟨"1", "img", "s", "t", "a", "d", true, 0⟩,
        CacheLine.badJson, CacheLine.goodJson ⟨"2", "", "s", "u", "b", "e", false, 1⟩] = .ok m ∧
      load_cache ([CacheLine.goodJson ⟨"1", "img", "s", "t", "a", "d", true, 0⟩,
        CacheLine.badJson, CacheLine.goodJson ⟨"2", "", "s", "u", "b", "e", false, 1⟩].filter
          (fun l => l != CacheLine.badJson)) = .ok m ∧
      ∀ e, CacheLine.goodJson e ∈ [CacheLine.goodJson ⟨"1", "img", "s", "t", "a", "d", true, 0⟩,
        CacheLine.badJson, CacheLine.goodJson ⟨"2", "", "s", "u", "b", "e", false, 1⟩] →
        e.object_id ∈ m.map Prod.fst :=
  load_cache_skips_undecodable_lines _ (by decide)

/-- C7 counterexample (to the claim as stated): a second line that is
valid JSON but lacks the `object_id` key is an individually corrupt line,
yet loading it fails the whole load with a `KeyError` instead of skipping
it — the entry of the healthy first line is lost too. -/
theorem load_cache_keyerror_counterexample :
    load_cache [CacheLine.goodJson ⟨"1", "img", "s", "t", "a", "d", true, 0⟩] =
      .ok [("1", ⟨"1", "img", "s", "t", "a", "d", true, 0⟩)] ∧
    load_cache [CacheLine.goodJson ⟨"1", "img", "s", "t", "a", "d", true, 0⟩,
      CacheLine.jsonNoId] = .error "KeyError: object_id" := by
  constructor <;> rfl

end MetFetch

namespace Moma

/-- Concrete 10-item dataset for exercising the driver's start logic. -/
def c8Dataset : List Artwork :=
  [⟨"moma_0", "T0", "", "", "", "", "", "", "", "", "", false⟩,
   ⟨"moma_1", "T1", "", "", "", "", "", "", "", "", "", false⟩,
   ⟨"moma_2", "T2", "", "", "", "", "", "", "", "", "", false⟩,
   ⟨"moma_3", "T3", "", "", "", "", "", "", "", "", "", false⟩,
   ⟨"moma_4", "T4", "", "", "", "", "", "", "", "", "", false⟩,
   ⟨"moma_5", "T5", "", "", "", "", "", "", "", "", "", false⟩,
   ⟨"moma_6", "T6", "", "", "", "", "", "", "", "", "", false⟩,
   ⟨"moma_7", "T7", "", "", "", "", "", "", "", "", "", false⟩,
   ⟨"moma_8", "T8", "", "", "", "", "", "", "", "", "", false⟩,
   ⟨"moma_9", "T9", "", "", "", "", "", "", "", "", "", false⟩]

/-- A sink record left over from an earlier run. -/
def c8OldSink : List JinaRecord :=
  [⟨"old", [2], 0, "jina_v3", 1, "t", "a", "MoMA", false, false⟩]

/-- C8 (code bug): with the resume flag OFF and a persisted checkpoint at
index 5 over this 10-item dataset, `main` truncates the output sink (mode
`'w'`) yet still computes `start_index = lastProcessedIndex + 1 = 6` from
the unconditionally loaded checkpoint: the run visits only indices 6-9, so
the truncated sink ends up holding only items 6-9 and the prior record is
gone — items 0-5 are silently absent from the fresh output, where the spec
requires a resume-off run to begin at index 0. -/
theorem resume_off_truncates_but_starts_at_checkpoint :
    (jinaMain c8Dataset (fun _ => none) (fun _ => .ok [1]) (fun _ => 0) none false 16
      (some ⟨5, 3, 1, 1, "moma_5", 100⟩) c8OldSink 0).start = 6 ∧
    (jinaMain c8Dataset (fun _ => none) (fun _ => .ok [1]) (fun _ => 0) none false 16
      (some ⟨5, 3, 1, 1, "moma_5", 100⟩) c8OldSink 0).visited = [6, 7, 8, 9] ∧
    (jinaMain c8Dataset (fun _ => none) (fun _ => .ok [1]) (fun _ => 0) none false 16
      (some ⟨5, 3, 1, 1, "moma_5", 100⟩) c8OldSink 0).sink.map JinaRecord.artwork_id =
      ["moma_6", "moma_7", "moma_8", "moma_9"] ∧
    c8OldSink.length = 1 := by
  refine ⟨rfl, rfl, rfl, rfl⟩

theorem jina_process_artwork_unit (e : EmbedOutcome) (artwork : Artwork)
    (d : Option Description) (now : Nat) (sink : List JinaRecord) :
    ((jina_process_artwork e artwork d now sink).1 = ⟨1, 0, 0⟩ ∨
     (jina_process_artwork e artwork d now sink).1 = ⟨0, 1, 0⟩ ∨
     (jina_process_artwork e artwork d now sink).1 = ⟨0, 0, 1⟩) ∧
    (jina_process_artwork e artwork d now sink).1.processed +
      (jina_process_artwork e artwork d now sink).1.skipped +
      (jina_process_artwork e artwork d now sink).1.failed = 1 ∧
    (jina_process_artwork e artwork d now sink).2.length =
      sink.length + (jina_process_artwork e artwork d now sink).1.processed ∧
    ((jina_process_artwork e artwork d now sink).1.processed = 0 →
      (jina_process_artwork e artwork d now sink).2 = sink) ∧
    ((jina_process_artwork e artwork d now sink).1.processed = 1 →
      ∃ rec, (jina_process_artwork e artwork d now sink).2 = sink ++ [rec]) := by
  by_cases h : pyStrip (create_text_for_embedding artwork d) = ""
  · simp [jina_process_artwork, h]
  · cases e with
    | exn => simp [jina_process_artwork, h]
    | ok emb => simp [jina_process_artwork, h]

theorem siglip2_process_artwork_unit (o : Siglip2Outcome) (artwork : Artwork) (now : Nat)
    (sink : List Siglip2Record) :
    ((siglip2_process_artwork o artwork now sink).1 = ⟨1, 0, 0⟩ ∨
     (siglip2_process_artwork o artwork now sink).1 = ⟨0, 1, 0⟩ ∨
     (siglip2_process_artwork o artwork now sink).1 = ⟨0, 0, 1⟩) ∧
    (siglip2_process_artwork o artwork now sink).1.processed +
      (siglip2_process_artwork o artwork now sink).1.skipped +
      (siglip2_process_artwork o artwork now sink).1.failed = 1 ∧
    (siglip2_process_artwork o artwork now sink).2.length =
      sink.length + (siglip2_process_artwork o artwork now sink).1.processed ∧
    ((siglip2_process_artwork o artwork now sink).1.processed = 0 →
      (siglip2_process_artwork o artwork now sink).2 = sink) ∧
    ((siglip2_process_artwork o artwork now sink).1.processed = 1 →
      ∃ rec, (siglip2_process_artwork o artwork now sink).2 = sink ++ [rec]) := by
  cases o <;> simp [siglip2_process_artwork]

theorem momaLoop_counts_sum {α : Type} (step : Nat → List α → Counts3 × List α)
    (idOf : Nat → String) (clock : Nat → Nat) (batchSize startIndex : Nat)
    (hstep : ∀ i s, (step i s).1.processed + (step i s).1.skipped + (step i s).1.failed = 1) :
    ∀ (idxs : List Nat) (p : Progress) (sink : List α),
      (momaLoop step idOf clock batchSize startIndex idxs p sink).final.totalProcessed +
        (momaLoop step idOf clock batchSize startIndex idxs p sink).final.totalSkipped +
        (momaLoop step idOf clock batchSize startIndex idxs p sink).final.totalFailed =
      p.totalProcessed + p.totalSkipped + p.totalFailed + idxs.length := by
  intro idxs
  induction idxs with
  | nil => intro p sink; simp [momaLoop]
  | cons i rest ih =>
    intro p sink
    have hs := hstep i sink
    simp only [momaLoop]
    split <;>
    · simp only [List.length_cons]
      rw [ih]
      simp only []
      omega

theorem momaLoop_sink_len {α : Type} (step : Nat → List α → Counts3 × List α)
    (idOf : Nat → String) (clock : Nat → Nat) (batchSize startIndex : Nat)
    (hstep : ∀ i s, (step i s).2.length = s.length + (step i s).1.processed) :
    ∀ (idxs : List Nat) (p : Progress) (sink : List α),
      (momaLoop step idOf clock batchSize startIndex idxs p sink).sink.length +
        p.totalProcessed =
      sink.length +
        (momaLoop step idOf clock batchSize startIndex idxs p sink).final.totalProcessed := by
  intro idxs
  induction idxs with
  | nil => intro p sink; simp [momaLoop]
  | cons i rest ih =>
    intro p sink
    have hs := hstep i sink
    simp only [momaLoop]
    split <;>
    · have h1 := ih (⟨(i : Int), p.totalProcessed + (step i sink).1.processed,
        p.totalSkipped + (step i sink).1.skipped, p.totalFailed + (step i sink).1.failed,
        idOf i, clock i⟩ : Progress) (step i sink).2
      simp only [] at h1 ⊢
      omega

/-- C10: in the embedding drivers, processing a single artwork yields
exactly one of the unit outcome dicts `{processed: 1}`, `{skipped: 1}`,
`{failed: 1}` (each summing to 1), a record is appended to the sink
exactly when the outcome is processed, and consequently, for every state
the driver loop can be in (hence after every iteration), the final
counters satisfy totalProcessed + totalSkipped + totalFailed =
loaded totals + number of items visited this run, and the sink grows by
exactly the number of processed outcomes. -/
theorem outcome_partition_and_counters :
    (∀ (e : EmbedOutcome) (artwork : Artwork) (d : Option Description) (now : Nat)
        (sink : List JinaRecord),
      ((jina_process_artwork e artwork d now sink).1 = ⟨1, 0, 0⟩ ∨
       (jina_process_artwork e artwork d now sink).1 = ⟨0, 1, 0⟩ ∨
       (jina_process_artwork e artwork d now sink).1 = ⟨0, 0, 1⟩) ∧
      ((jina_process_artwork e artwork d now sink).1.processed = 0 →
        (jina_process_artwork e artwork d now sink).2 = sink) ∧
      ((jina_process_artwork e artwork d now sink).1.processed = 1 →
        ∃ rec, (jina_process_artwork e artwork d now sink).2 = sink ++ [rec])) ∧
    (∀ (o : Siglip2Outcome) (artwork : Artwork) (now : Nat) (sink : List Siglip2Record),
      ((siglip2_process_artwork o artwork now sink).1 = ⟨1, 0, 0⟩ ∨
       (siglip2_process_artwork o artwork now sink).1 = ⟨0, 1, 0⟩ ∨
       (siglip2_process_artwork o artwork now sink).1 = ⟨0, 0, 1⟩) ∧
      ((siglip2_process_artwork o artwork now sink).1.processed = 0 →
        (siglip2_process_artwork o artwork now sink).2 = sink) ∧
      ((siglip2_process_artwork o artwork now sink).1.processed = 1 →
        ∃ rec, (siglip2_process_artwork o artwork now sink).2 = sink ++ [rec])) ∧
    (∀ (artworks : List Artwork) (descriptions : String → Option Description)
        (embeds : Nat → EmbedOutcome) (clock : Nat → Nat) (limit : Option Nat)
        (resume : Bool) (batchSize : Nat) (file : Option Progress)
        (sinkFile : List JinaRecord) (now : Nat),
      (jinaMain artworks descriptions embeds clock limit resume batchSize file sinkFile
          now).final.totalProcessed +
        (jinaMain artworks descriptions embeds clock limit resume batchSize file sinkFile
          now).final.totalSkipped +
        (jinaMain artworks descriptions embeds clock limit resume batchSize file sinkFile
          now).final.totalFailed =
        (load_progress file now).totalProcessed + (load_progress file now).totalSkipped +
          (load_progress file now).totalFailed +
          (jinaMain artworks descriptions embeds clock limit resume batchSize file sinkFile
            now).visited.length ∧
      (jinaMain artworks descriptions embeds clock limit resume batchSize file sinkFile
          now).sink.length + (load_progress file now).totalProcessed =
        (if resume then sinkFile.length else 0) +
          (jinaMain artworks descriptions embeds clock limit resume batchSize file sinkFile
            now).final.totalProcessed) := by
  refine ⟨?_, ?_, ?_⟩
  · intro e artwork d now sink
    obtain ⟨h1, _, _, h4, h5⟩ := jina_process_artwork_unit e artwork d now sink
    exact ⟨h1, h4, h5⟩
  · intro o artwork now sink
    obtain ⟨h1, _, _, h4, h5⟩ := siglip2_process_artwork_unit o artwork now sink
    exact ⟨h1, h4, h5⟩
  · intro artworks descriptions embeds clock limit resume batchSize file sinkFile now
    simp only [jinaMain, momaMain]
    constructor
    · exact momaLoop_counts_sum _ _ _ _ _
        (fun i s => (jina_process_artwork_unit (embeds i) (artworks.getD i default)
          (descriptions (artworks.getD i default).id) (clock i) s).2.1) _ _ _
    · have h : (momaLoop
          (fun i sink =>
            jina_process_artwork (embeds i) (artworks.getD i default)
              (descriptions (artworks.getD i default).id) (clock i) sink)
          (fun i => (artworks.getD i default).id) clock batchSize
          ((load_progress file now).lastProcessedIndex + 1).toNat
          (List.range' ((load_progress file now).lastProcessedIndex + 1).toNat
            ((match limit with
              | some l => min (((load_progress file now).lastProcessedIndex + 1).toNat + l)
                  artworks.length
              | none => artworks.length) -
              ((load_progress file now).lastProcessedIndex + 1).toNat))
          (load_progress file now) (if resume then sinkFile else [])).sink.length +
            (load_progress file now).totalProcessed =
          (if resume then sinkFile else []).length +
            (momaLoop
              (fun i sink =>
                jina_process_artwork (embeds i) (artworks.getD i default)
                  (descriptions (artworks.getD i default).id) (clock i) sink)
              (fun i => (artworks.getD i default).id) clock batchSize
              ((load_progress file now).lastProcessedIndex + 1).toNat
              (List.range' ((load_progress file now).lastProcessedIndex + 1).toNat
                ((match limit with
                  | some l => min (((load_progress file now).lastProcessedIndex + 1).toNat + l)
                      artworks.length
                  | none => artworks.length) -
                  ((load_progress file now).lastProcessedIndex + 1).toNat))
              (load_progress file now)
              (if resume then sinkFile else [])).final.totalProcessed :=
        momaLoop_sink_len _ _ _ _ _
          (fun i s => (jina_process_artwork_unit (embeds i) (artworks.getD i default)
            (descriptions (artworks.getD i default).id) (clock i) s).2.2.1) _ _ _
      have hlen : (if resume then sinkFile else ([] : List JinaRecord)).length =
          (if resume then sinkFile.length else 0) := by
        cases resume <;> simp
      rw [hlen] at h
      exact h

theorem chain_le_of_le_head {a b : Int} {l : List Int} (hab : a ≤ b)
    (h : List.Chain (· ≤ ·) b l) : List.Chain (· ≤ ·) a l := by
  cases h with
  | nil => exact List.Chain.nil
  | cons hbc hchain => exact List.Chain.cons (le_trans hab hbc) hchain

theorem int_le_toNat_succ (x : Int) : x ≤ ((x + 1).toNat : Int) := by
  have := Int.self_le_toNat (x + 1)
  omega

theorem cast_le_succ (s : Nat) : ((s : Int)) ≤ ((s + 1 : Nat) : Int) := by omega

theorem momaLoop_saves_chain {α : Type} (step : Nat → List α → Counts3 × List α)
    (idOf : Nat → String) (clock : Nat → Nat) (batchSize startIndex : Nat) :
    ∀ (cnt s : Nat) (p : Progress) (sink : List α),
      p.lastProcessedIndex ≤ (s : Int) →
      List.Chain (· ≤ ·) p.lastProcessedIndex
        ((momaLoop step idOf clock batchSize startIndex (List.range' s cnt) p
          sink).saves.map Progress.lastProcessedIndex) := by
  intro cnt
  induction cnt with
  | zero =>
    intro s p sink _
    exact List.Chain.cons (le_refl _) List.Chain.nil
  | succ c ih =>
    intro s p sink hle
    rw [List.range'_succ]
    simp only [momaLoop]
    split
    · exact List.Chain.cons hle (ih (s + 1)
        ⟨(s : Int), p.totalProcessed + (step s sink).1.processed,
         p.totalSkipped + (step s sink).1.skipped, p.totalFailed + (step s sink).1.failed,
         idOf s, clock s⟩ (step s sink).2 (cast_le_succ s))
    · exact chain_le_of_le_head hle (ih (s + 1)
        ⟨(s : Int), p.totalProcessed + (step s sink).1.processed,
         p.totalSkipped + (step s sink).1.skipped, p.totalFailed + (step s sink).1.failed,
         idOf s, clock s⟩ (step s sink).2 (cast_le_succ s))

theorem momaLoop_final_ge {α : Type} (step : Nat → List α → Counts3 × List α)
    (idOf : Nat → String) (clock : Nat → Nat) (batchSize startIndex : Nat) :
    ∀ (cnt s : Nat) (p : Progress) (sink : List α),
      p.lastProcessedIndex ≤ (s : Int) →
      p.lastProcessedIndex ≤
        (momaLoop step idOf clock batchSize startIndex (List.range' s cnt) p
          sink).final.lastProcessedIndex := by
  intro cnt
  induction cnt with
  | zero => intro s p sink _; exact le_refl _
  | succ c ih =>
    intro s p sink hle
    rw [List.range'_succ]
    simp only [momaLoop]
    split <;>
    · exact le_trans hle (ih (s + 1) _ _ (cast_le_succ s))

theorem momaLoop_saves_le_final {α : Type} (step : Nat → List α → Counts3 × List α)
    (idOf : Nat → String) (clock : Nat → Nat) (batchSize startIndex : Nat) :
    ∀ (cnt s : Nat) (p : Progress) (sink : List α) (q : Progress),
      p.lastProcessedIndex ≤ (s : Int) →
      q ∈ (momaLoop step idOf clock batchSize startIndex (List.range' s cnt) p sink).saves →
      q.lastProcessedIndex ≤
        (momaLoop step idOf clock batchSize startIndex (List.range' s cnt) p
          sink).final.lastProcessedIndex := by
  intro cnt
  induction cnt with
  | zero =>
    intro s p sink q _ hq
    simp only [momaLoop, List.mem_singleton] at hq
    subst hq
    exact le_refl _
  | succ c ih =>
    intro s p sink q hle hq
    rw [List.range'_succ] at hq ⊢
    simp only [momaLoop] at hq ⊢
    by_cases hc : (s + 1 - startIndex) % batchSize = 0
    · simp only [if_pos hc] at hq ⊢
      rcases List.mem_cons.mp hq with hq | hq
      · subst hq
        exact momaLoop_final_ge step idOf clock batchSize startIndex c (s + 1) _ _
          (cast_le_succ s)
      · exact ih (s + 1) _ _ q (cast_le_succ s) hq
    · simp only [if_neg hc] at hq ⊢
      exact ih (s + 1) _ _ q (cast_le_succ s) hq

theorem momaLoop_loaded_le_saves {α : Type} (step : Nat → List α → Counts3 × List α)
    (idOf : Nat → String) (clock : Nat → Nat) (batchSize startIndex : Nat) :
    ∀ (cnt s : Nat) (p : Progress) (sink : List α) (q : Progress),
      p.lastProcessedIndex ≤ (s : Int) →
      q ∈ (momaLoop step idOf clock batchSize startIndex (List.range' s cnt) p sink).saves →
      p.lastProcessedIndex ≤ q.lastProcessedIndex := by
  intro cnt
  induction cnt with
  | zero =>
    intro s p sink q _ hq
    simp only [momaLoop, List.mem_singleton] at hq
    subst hq
    exact le_refl _
  | succ c ih =>
    intro s p sink q hle hq
    rw [List.range'_succ] at hq
    simp only [momaLoop] at hq
    by_cases hc : (s + 1 - startIndex) % batchSize = 0
    · simp only [if_pos hc] at hq
      rcases List.mem_cons.mp hq with hq | hq
      · subst hq
        exact hle
      · exact le_trans hle (ih (s + 1) _ _ q (cast_le_succ s) hq)
    · simp only [if_neg hc] at hq
      exact le_trans hle (ih (s + 1) _ _ q (cast_le_succ s) hq)

end Moma

namespace MetFetch

theorem metStep_fetched (bd : ℚ) (maxR : Nat) (envOf : String → Nat → Resp)
    (now : String → Nat) (st : MetRunState) (object_id : String) :
    (metStep bd maxR envOf now st object_id).fetched = st.fetched ++ [object_id] := by
  simp only [metStep]
  split <;> rfl

theorem metStep_appended (bd : ℚ) (maxR : Nat) (envOf : String → Nat → Resp)
    (now : String → Nat) (st : MetRunState) (object_id : String) :
    ∀ e ∈ (metStep bd maxR envOf now st object_id).appended,
      e ∈ st.appended ∨ e.object_id = object_id := by
  intro e he
  simp only [metStep] at he
  split at he
  · rcases List.mem_append.mp he with h | h
    · exact Or.inl h
    · rw [List.mem_singleton] at h
      subst h
      exact Or.inr rfl
  · exact Or.inl he
  · exact Or.inl he

theorem metFold_fetched (bd : ℚ) (maxR : Nat) (envOf : String → Nat → Resp)
    (now : String → Nat) :
    ∀ (ids : List String) (st : MetRunState),
      (ids.foldl (metStep bd maxR envOf now) st).fetched = st.fetched ++ ids := by
  intro ids
  induction ids with
  | nil => intro st; simp
  | cons i rest ih =>
    intro st
    simp only [List.foldl_cons]
    rw [ih, metStep_fetched]
    simp

theorem metFold_appended (bd : ℚ) (maxR : Nat) (envOf : String → Nat → Resp)
    (now : String → Nat) :
    ∀ (ids : List String) (st : MetRunState) (e : MetEntry),
      e ∈ (ids.foldl (metStep bd maxR envOf now) st).appended →
      e ∈ st.appended ∨ e.object_id ∈ ids := by
  intro ids
  induction ids with
  | nil => intro st e he; exact Or.inl he
  | cons i rest ih =>
    intro st e he
    simp only [List.foldl_cons] at he
    rcases ih _ e he with h | h
    · rcases metStep_appended bd maxR envOf now st i e h with h2 | h2
      · exact Or.inl h2
      · exact Or.inr (by simp [h2])
    · exact Or.inr (by simp [h])

theorem paintingIdsOf_not_cached (rows : List CsvRow) (cacheKeys : List String)
    (oid : String) :
    oid ∈ paintingIdsOf rows cacheKeys → ¬ oid ∈ cacheKeys := by
  intro hmem hin
  simp only [paintingIdsOf, List.mem_filterMap] at hmem
  obtain ⟨row, _, hif⟩ := hmem
  split at hif
  · rename_i hcond
    simp only [Bool.and_eq_true, Bool.not_eq_true'] at hcond
    obtain ⟨_, hc⟩ := hcond
    cases hif
    have helem : cacheKeys.contains row.objectId = true := List.elem_eq_true_of_mem hin
    rw [helem] at hc
    exact Bool.noConfusion hc
  · simp at hif

theorem applyLimit_subset (limit : Option Nat) (ids : List String) :
    ∀ id ∈ applyLimit limit ids, id ∈ ids := by
  intro id h
  cases limit with
  | none => exact h
  | some l =>
    simp only [applyLimit] at h
    split at h
    · exact List.take_subset _ _ h
    · exact h

end MetFetch

namespace Moma

theorem momaLoop_range'_final {α : Type} (step : Nat → List α → Counts3 × List α)
    (idOf : Nat → String) (clock : Nat → Nat) (batchSize startIndex : Nat) :
    ∀ (cnt s : Nat) (p : Progress) (sink : List α), 0 < cnt →
      (momaLoop step idOf clock batchSize startIndex (List.range' s cnt) p
        sink).final.lastProcessedIndex = ((s + cnt - 1 : Nat) : Int) := by
  intro cnt
  induction cnt with
  | zero => intro s p sink h; omega
  | succ c ih =>
    intro s p sink _
    rw [List.range'_succ]
    simp only [momaLoop]
    cases c with
    | zero =>
      split <;> simp [momaLoop]
    | succ c' =>
      split <;>
      · rw [ih (s + 1)
          ⟨(s : Int), p.totalProcessed + (step s sink).1.processed,
           p.totalSkipped + (step s sink).1.skipped, p.totalFailed + (step s sink).1.failed,
           idOf s, clock s⟩ (step s sink).2 (Nat.succ_pos c')]
        exact congrArg _ (by omega)

theorem jinaMain_full_run_final (artworks : List Artwork)
    (descriptions : String → Option Description) (embeds : Nat → EmbedOutcome)
    (clock : Nat → Nat) (r1 : Bool) (batchSize : Nat) (s0 : List JinaRecord) (now1 : Nat) :
    (jinaMain artworks descriptions embeds clock none r1 batchSize none s0
      now1).final.lastProcessedIndex = (artworks.length : Int) - 1 := by
  simp only [jinaMain, momaMain, load_progress]
  norm_num
  cases hn : artworks.length with
  | zero => simp [momaLoop]
  | succ m =>
    rw [momaLoop_range'_final _ _ _ _ _ (m + 1) 0 _ _ (Nat.succ_pos m)]
    push_cast
    omega

theorem jinaMain_resume_noop (artworks : List Artwork)
    (descriptions : String → Option Description) (embeds : Nat → EmbedOutcome)
    (clock : Nat → Nat) (batchSize : Nat) (ckpt : Progress) (sinkFile : List JinaRecord)
    (now : Nat) (h : (ckpt.lastProcessedIndex + 1).toNat = artworks.length) :
    jinaMain artworks descriptions embeds clock none true batchSize (some ckpt) sinkFile
      now = ⟨ckpt, [ckpt], sinkFile, [], artworks.length⟩ := by
  simp only [jinaMain, momaMain, load_progress]
  rw [h]
  simp [momaLoop]

theorem jinaMain_chain (artworks : List Artwork)
    (descriptions : String → Option Description) (embeds : Nat → EmbedOutcome)
    (clock : Nat → Nat) (limit : Option Nat) (resume : Bool) (batchSize : Nat)
    (file : Option Progress) (sinkFile : List JinaRecord) (now : Nat) :
    List.Chain (· ≤ ·) (load_progress file now).lastProcessedIndex
      ((jinaMain artworks descriptions embeds clock limit resume batchSize file sinkFile
        now).saves.map Progress.lastProcessedIndex) := by
  simp only [jinaMain, momaMain]
  exact momaLoop_saves_chain _ _ _ _ _ _ _ _ _ (int_le_toNat_succ _)

theorem jinaMain_saves_le_final (artworks : List Artwork)
    (descriptions : String → Option Description) (embeds : Nat → EmbedOutcome)
    (clock : Nat → Nat) (limit : Option Nat) (resume : Bool) (batchSize : Nat)
    (file : Option Progress) (sinkFile : List JinaRecord) (now : Nat) :
    ∀ q ∈ (jinaMain artworks descriptions embeds clock limit resume batchSize file sinkFile
        now).saves,
      q.lastProcessedIndex ≤
        (jinaMain artworks descriptions embeds clock limit resume batchSize file sinkFile
          now).final.lastProcessedIndex := by
  intro q hq
  simp only [jinaMain, momaMain] at hq ⊢
  exact momaLoop_saves_le_final _ _ _ _ _ _ _ _ _ q (int_le_toNat_succ _) hq

theorem jinaMain_loaded_le_saves (artworks : List Artwork)
    (descriptions : String → Option Description) (embeds : Nat → EmbedOutcome)
    (clock : Nat → Nat) (limit : Option Nat) (resume : Bool) (batchSize : Nat)
    (file : Option Progress) (sinkFile : List JinaRecord) (now : Nat) :
    ∀ q ∈ (jinaMain artworks descriptions embeds clock limit resume batchSize file sinkFile
        now).saves,
      (load_progress file now).lastProcessedIndex ≤ q.lastProcessedIndex := by
  intro q hq
  simp only [jinaMain, momaMain] at hq
  exact momaLoop_loaded_le_saves _ _ _ _ _ _ _ _ _ q (int_le_toNat_succ _) hq

end Moma

namespace Moma

/-- C9: loading a missing checkpoint yields index -1; within any single
run (fresh or resumed) the sequence `loaded index, saved indices…` is a
≤-chain, so `lastProcessedIndex` is non-decreasing across the run's saves;
and every index saved by a run that resumes from an earlier run's final
checkpoint is ≥ every index the earlier run saved. -/
theorem checkpoint_monotonicity
    (artworks : List Artwork) (descriptions : String → Option Description)
    (embeds : Nat → EmbedOutcome) (clock : Nat → Nat) (limit : Option Nat) (resume : Bool)
    (batchSize : Nat) (file : Option Progress) (sinkFile : List JinaRecord) (now : Nat)
    (artworks2 : List Artwork) (descriptions2 : String → Option Description)
    (embeds2 : Nat → EmbedOutcome) (clock2 : Nat → Nat) (limit2 : Option Nat)
    (batchSize2 : Nat) (sinkFile2 : List JinaRecord) (now2 : Nat) (now0 : Nat) :
    (load_progress none now0).lastProcessedIndex = -1 ∧
    List.Chain (· ≤ ·) (load_progress file now).lastProcessedIndex
      ((jinaMain artworks descriptions embeds clock limit resume batchSize file sinkFile
        now).saves.map Progress.lastProcessedIndex) ∧
    (∀ q1 ∈ (jinaMain artworks descriptions embeds clock limit resume batchSize file
        sinkFile now).saves,
     ∀ q2 ∈ (jinaMain artworks2 descriptions2 embeds2 clock2 limit2 true batchSize2
        (some (jinaMain artworks descriptions embeds clock limit resume batchSize file
          sinkFile now).final) sinkFile2 now2).saves,
      q1.lastProcessedIndex ≤ q2.lastProcessedIndex) := by
  refine ⟨rfl, jinaMain_chain artworks descriptions embeds clock limit resume batchSize
    file sinkFile now, ?_⟩
  intro q1 hq1 q2 hq2
  have h1 := jinaMain_saves_le_final artworks descriptions embeds clock limit resume
    batchSize file sinkFile now q1 hq1
  have h2 := jinaMain_loaded_le_saves artworks2 descriptions2 embeds2 clock2 limit2 true
    batchSize2
    (some (jinaMain artworks descriptions embeds clock limit resume batchSize file
      sinkFile now).final) sinkFile2 now2 q2 hq2
  exact le_trans h1 h2

/-- Witness for C9: one-item dataset, checkpoint save every item; the
first run saves index 0 (twice: periodic and final), the resumed run
re-saves it; all saved indices satisfy the claimed inequalities. -/
theorem checkpoint_monotonicity_witness :
    (load_progress none 3).lastProcessedIndex = -1 ∧
    (⟨0, 1, 0, 0, "a", 0⟩ : Progress).lastProcessedIndex ≤
      (⟨0, 1, 0, 0, "a", 0⟩ : Progress).lastProcessedIndex := by
  have h := checkpoint_monotonicity
    [⟨"a", "T", "", "", "", "", "", "", "", "", "", false⟩] (fun _ => none)
    (fun _ => EmbedOutcome.ok [1]) (fun _ => 0) none false 1 none [] 7
    [⟨"a", "T", "", "", "", "", "", "", "", "", "", false⟩] (fun _ => none)
    (fun _ => EmbedOutcome.ok [1]) (fun _ => 0) none 1 [] 9 3
  exact ⟨h.1, h.2.2 ⟨0, 1, 0, 0, "a", 0⟩ (by decide) ⟨0, 1, 0, 0, "a", 0⟩ (by decide)⟩

/-- C2: after a jina run over the whole dataset (no limit, fresh
checkpoint), re-running with resume on the unmodified dataset visits no
index (zero external embed calls), leaves the sink exactly as it was and
the final checkpoint unchanged; and in the Met fetcher, an identifier
already present in the loaded cache is never passed to the fetch client
and no cache-file line is ever appended for it. -/
theorem idempotent_resume
    (artworks : List Artwork) (descs1 descs2 : String → Option Description)
    (embeds1 embeds2 : Nat → EmbedOutcome) (clock1 clock2 : Nat → Nat) (r1 : Bool)
    (batch1 batch2 : Nat) (s0 : List JinaRecord) (now1 now2 : Nat)
    (bd : ℚ) (maxR : Nat) (envOf : String → Nat → MetFetch.Resp)
    (nowMet : String → Nat) (rows : List MetFetch.CsvRow)
    (cacheLines : List MetFetch.CacheLine)
    (cache : List (String × MetFetch.MetEntry)) (limit : Option Nat)
    (st : MetFetch.MetRunState) (object_id : String)
    (hload : MetFetch.load_cache cacheLines = .ok cache)
    (hrun : MetFetch.process_paintings bd maxR envOf nowMet rows cacheLines limit = .ok st)
    (hid : object_id ∈ cache.map Prod.fst) :
    (jinaMain artworks descs2 embeds2 clock2 none true batch2
      (some (jinaMain artworks descs1 embeds1 clock1 none r1 batch1 none s0 now1).final)
      (jinaMain artworks descs1 embeds1 clock1 none r1 batch1 none s0 now1).sink
      now2).visited = [] ∧
    (jinaMain artworks descs2 embeds2 clock2 none true batch2
      (some (jinaMain artworks descs1 embeds1 clock1 none r1 batch1 none s0 now1).final)
      (jinaMain artworks descs1 embeds1 clock1 none r1 batch1 none s0 now1).sink
      now2).sink =
      (jinaMain artworks descs1 embeds1 clock1 none r1 batch1 none s0 now1).sink ∧
    (jinaMain artworks descs2 embeds2 clock2 none true batch2
      (some (jinaMain artworks descs1 embeds1 clock1 none r1 batch1 none s0 now1).final)
      (jinaMain artworks descs1 embeds1 clock1 none r1 batch1 none s0 now1).sink
      now2).final =
      (jinaMain artworks descs1 embeds1 clock1 none r1 batch1 none s0 now1).final ∧
    ¬ object_id ∈ st.fetched ∧
    (∀ e ∈ st.appended, e.object_id ≠ object_id) := by
  have hfull := jinaMain_full_run_final artworks descs1 embeds1 clock1 r1 batch1 s0 now1
  have hnoop := jinaMain_resume_noop artworks descs2 embeds2 clock2 batch2
    (jinaMain artworks descs1 embeds1 clock1 none r1 batch1 none s0 now1).final
    (jinaMain artworks descs1 embeds1 clock1 none r1 batch1 none s0 now1).sink now2
    (by rw [hfull]; omega)
  have hst : (MetFetch.applyLimit limit
      (MetFetch.paintingIdsOf rows (cache.map Prod.fst))).foldl
      (MetFetch.metStep bd maxR envOf nowMet) MetFetch.initMetRunState = st := by
    simpa [MetFetch.process_paintings, hload, Except.map] using hrun
  refine ⟨?_, ?_, ?_, ?_, ?_⟩
  · rw [hnoop]
  · rw [hnoop]
  · rw [hnoop]
  · intro hmem
    rw [← hst, MetFetch.metFold_fetched] at hmem
    simp only [MetFetch.initMetRunState, List.nil_append] at hmem
    exact MetFetch.paintingIdsOf_not_cached rows _ _
      (MetFetch.applyLimit_subset _ _ _ hmem) hid
  · intro e he heq
    rw [← hst] at he
    rcases MetFetch.metFold_appended bd maxR envOf nowMet _ _ e he with h | h
    · simp [MetFetch.initMetRunState] at h
    · rw [heq] at h
      exact MetFetch.paintingIdsOf_not_cached rows _ _
        (MetFetch.applyLimit_subset _ _ _ h) hid

/-- Witness for C2: a one-item jina dataset run to completion and resumed,
and a Met run whose only CSV row is already cached. -/
theorem idempotent_resume_witness :
    (jinaMain [⟨"a", "T", "", "", "", "", "", "", "", "", "", false⟩] (fun _ => none)
      (fun _ => EmbedOutcome.ok [1]) (fun _ => 0) none true 1
      (some (jinaMain [⟨"a", "T", "", "", "", "", "", "", "", "", "", false⟩]
        (fun _ => none) (fun _ => EmbedOutcome.ok [1]) (fun _ => 0) none false 1 none []
        0).final)
      (jinaMain [⟨"a", "T", "", "", "", "", "", "", "", "", "", false⟩] (fun _ => none)
        (fun _ => EmbedOutcome.ok [1]) (fun _ => 0) none false 1 none [] 0).sink
      0).visited = [] ∧
    ¬ "42" ∈ (⟨[], [], [], [], 0, 0, 0, 0⟩ : MetFetch.MetRunState).fetched := by
  have h := idempotent_resume [⟨"a", "T", "", "", "", "", "", "", "", "", "", false⟩]
    (fun _ => none) (fun _ => none) (fun _ => EmbedOutcome.ok [1])
    (fun _ => EmbedOutcome.ok [1]) (fun _ => 0) (fun _ => 0) false 1 1 [] 0 0
    2 5 (fun _ _ => MetFetch.Resp.notFound) (fun _ => 0)
    [⟨"Paintings", "True", "x", "42"⟩]
    [MetFetch.CacheLine.goodJson ⟨"42", "i", "s", "t", "a", "d", true, 0⟩]
    [("42", ⟨"42", "i", "s", "t", "a", "d", true, 0⟩)] none
    ⟨[], [], [], [], 0, 0, 0, 0⟩ "42" rfl rfl (by decide)
  exact ⟨h.1, h.2.2.2.1⟩

end Moma
